import Mathlib

/-!
Shallow embedding of the mca-parser crate (a Minecraft region-file parser):
`src/bigendian.rs`, `src/util.rs`, `src/error.rs`, `src/data.rs`, `src/lib.rs`.

Machine integers are embedded as `Nat`/`Int` with explicit wrapping where the
source wraps.  Rust debug-build semantics are used for arithmetic overflow,
failed `assert!`, `todo!`, and out-of-bounds slice indexing: each is modelled
as an explicit `panic` outcome of the computation.
-/

set_option maxRecDepth 8000

namespace Mca

/-- Outcome of a Rust computation that can panic (assertion failure, integer
over/underflow under debug assertions, out-of-bounds slice index, `todo!`). -/
inductive PanicOr (α : Type) where
  | panic : PanicOr α
  | ok : α → PanicOr α
deriving DecidableEq, Repr

/-- Embedding of `error.rs` lines 7-21: the crate's `Error` enum.  Payloads of
the wrapped collaborator errors (`fastnbt::error::Error`,
`miniz_oxide::inflate::DecompressError`, `io::Error`) are never inspected by
the code under verification and are dropped.  Note that the enum has no
`UnsupportedCompression` variant. -/
inductive Error where
  | NbtError : Error
  | DecompressError : Error
  | IoError : Error
  | MissingHeader : Error
  | UnexpectedEof : Error
  | Custom : String → Error
deriving DecidableEq, Repr

/-- Outcome of a Rust computation returning `Result<α, Error>` that can also
panic. -/
inductive RResult (α : Type) where
  | panic : RResult α
  | err : Error → RResult α
  | ok : α → RResult α
deriving DecidableEq, Repr

/-- Rust slice indexing `slice[i]`: panics when `i` is out of bounds. -/
def listIndex {α : Type} (l : List α) (i : Nat) : PanicOr α :=
  match l[i]? with
  | some a => .ok a
  | none => .panic

/-- Embedding of `bigendian.rs` `BigEndian<3>` read as `u32`
(`as_u32`, line 57): three bytes, big endian, top byte zero. -/
def be24 (b0 b1 b2 : Nat) : Nat := b0 * 2 ^ 16 + b1 * 2 ^ 8 + b2

/-- Embedding of `bigendian.rs` `BigEndian<4>` read as `u32`
(`as_u32`, line 56): four bytes, big endian. -/
def be32 (b0 b1 b2 b3 : Nat) : Nat := b0 * 2 ^ 24 + b1 * 2 ^ 16 + b2 * 2 ^ 8 + b3

/-- Embedding of the `util.rs` `positive_mod!` macro:
`((ex % num) + num) % num`, where Rust `%` on signed integers is the
truncated remainder (`Int.tmod`). -/
def positive_mod (ex num : Int) : Int := Int.tmod (Int.tmod ex num + num) num

/-- Rust `as i8` cast of a wider signed integer: wrap modulo 2^8 into
the interval [-128, 128).  Lean `%` on `Int` here is `emod`, which is
non-negative for a positive modulus. -/
def toI8 (n : Int) : Int := (n + 128) % 256 - 128

/-- Rust `as u64` cast of an `i64` (`data.rs` line 136, `*n as u64`):
reinterpret modulo 2^64. -/
def i64ToU64 (n : Int) : Nat := (n % (2 ^ 64)).toNat

/-- Fuel-driven helper for `ceilLog2`; structural recursion on the fuel so
that concrete instances reduce inside the kernel.  For `2 ≤ n` it recurses on
`⌈n/2⌉ = (n+1)/2`. -/
def ceilLog2Aux : Nat → Nat → Nat
  | _, 0 => 0
  | _, 1 => 0
  | 0, _ => 0
  | fuel + 1, n => ceilLog2Aux fuel ((n + 1) / 2) + 1

/-- Ceiling base-2 logarithm: the least `k` with `n ≤ 2 ^ k` (see the
characterization lemmas `le_pow_ceilLog2` and `ceilLog2_le`).
The source (`data.rs` line 144) computes this as
`(palette.len() as f32).log2().ceil() as u32`; the `f32` computation returns
exactly the ceiling log for every palette length in the ranges quantified over
below (it can drift from the exact value only for lengths around 2^20 and
beyond), so the embedding uses the exact integer function. -/
def ceilLog2 (n : Nat) : Nat := ceilLog2Aux n n

/-- Embedding of `data.rs` line 144: the block-palette index bit width
`max((palette.len() as f32).log2().ceil() as u32, 4)`. -/
def blockPaletteBits (paletteLen : Nat) : Nat := max (ceilLog2 paletteLen) 4

/-- Embedding of `data.rs` lines 167-176, `get_item_in_packed_slice`.
Debug-build semantics:
the division `u64::BITS / bits` panics when `bits = 0`;
when `bits > 64` (so `nums_per_u64 = 0`) either the `assert_eq!` fails or the
subsequent `index % 0` panics, so the call panics unconditionally;
the `assert_eq!` length precondition compares `slice.len() as u32`, i.e. the
length modulo 2^32, against `(4096.0 / nums_per_u64 as f32).ceil() as u32`,
which equals the exact ceiling division for every `nums_per_u64` in [1, 64];
slice indexing panics when out of bounds; and for `bits = 64` the final
`2u64.pow(bits)` overflows and panics. -/
def get_item_in_packed_slice (slice : List Nat) (index : Nat) (bits : Nat) :
    PanicOr Nat :=
  if bits = 0 then .panic
  else
    let nums_per_u64 := 64 / bits
    if nums_per_u64 = 0 then .panic
    else if slice.length % 2 ^ 32 ≠ (4096 + nums_per_u64 - 1) / nums_per_u64 then .panic
    else
      let index_in_num := index % nums_per_u64
      match listIndex slice (index / nums_per_u64) with
      | .panic => .panic
      | .ok w =>
        if bits = 64 then .panic
        else .ok ((w >>> (bits * index_in_num)) &&& (2 ^ bits - 1))

/-- Embedding of `nbt.rs` lines 20-25, the `Namespace` enum. -/
inductive Namespace where
  | Minecraft : Namespace
  | Custom : String → Namespace
deriving DecidableEq, Repr

/-- Embedding of `nbt.rs` lines 39-44, `NamespacedKey` (the `namespace` field
is renamed `ns` because `namespace` is a Lean keyword). -/
structure NamespacedKey where
  ns : Namespace
  key : String
deriving DecidableEq, Repr

/-- Opaque stand-in for the `fastnbt::Value` property payloads: the code under
verification never constructs or inspects these beyond moving them around. -/
abbrev NbtProps := List (String × String)

/-- Embedding of `nbt.rs` lines 274-281, `BlockState`. -/
structure BlockState where
  name : NamespacedKey
  properties : Option NbtProps
deriving DecidableEq, Repr

/-- Embedding of `data.rs` lines 138-141: the hard-coded block state built
when the packed data array is absent; `"minecraft:air".into()` parses (via
`NamespacedKey::from`, `nbt.rs` lines 64-72) to namespace `minecraft`,
key `air`. -/
def airBlockState : BlockState := ⟨⟨.Minecraft, "air"⟩, none⟩

/-- Embedding of `nbt.rs` lines 252-268, `BlockStates`: the palette plus the
optional packed data array (`LongArray`, a vector of `i64`). -/
structure BlockStates where
  palette : List BlockState
  data : Option (List Int)
deriving DecidableEq, Repr

/-- Embedding of `nbt.rs` lines 285-297, `Biomes`. -/
structure Biomes where
  palette : List String
  data : Option (List Int)
deriving DecidableEq, Repr

/-- Embedding of `nbt.rs` lines 325-333, `ChunkSection`; `y` is an `i8`. -/
structure ChunkSection where
  block_states : Option BlockStates
  y : Int
  biomes : Option Biomes
deriving DecidableEq, Repr

/-- Embedding of `nbt.rs` `ChunkNbt` restricted to the field consulted by the
operations under verification (`sections`); the remaining schema fields
(`data_version`, positions, status, heightmaps, ...) are decoded data carried
through unchanged and never read by the code the claims are about. -/
structure ChunkNbt where
  sections : List ChunkSection
deriving DecidableEq, Repr

/-- Embedding of `data.rs` lines 47-49, `ParsedChunk` (owns its NBT data). -/
structure ParsedChunk where
  nbt : ChunkNbt
deriving DecidableEq, Repr

/-- Embedding of `data.rs` lines 116-120, `ParsedChunk::get_chunk_section_at`:
`let subchunk_y = (block_y / 16) as i8;` followed by a linear search.
Rust `/` on `i32` truncates toward zero, i.e. `Int.tdiv`. -/
def ParsedChunk.get_chunk_section_at (c : ParsedChunk) (block_y : Int) :
    Option ChunkSection :=
  let subchunk_y := toI8 (Int.tdiv block_y 16)
  c.nbt.sections.find? (fun s => s.y == subchunk_y)

/-- Embedding of `data.rs` lines 125-150, `ParsedChunk::get_block`.
The two `assert!` calls and an out-of-range palette index are panics; the `?`
operator on the missing section or missing `block_states` yields `None`. -/
def ParsedChunk.get_block (c : ParsedChunk) (block_x : Nat) (block_y : Int)
    (block_z : Nat) : PanicOr (Option BlockState) :=
  match c.get_chunk_section_at block_y with
  | none => .ok none
  | some subchunk =>
    if 16 ≤ block_x then .panic
    else if 16 ≤ block_z then .panic
    else
      let block_y2 : Nat := (positive_mod block_y 16).toNat
      match subchunk.block_states with
      | none => .ok none
      | some bs =>
        match bs.data with
        | none => .ok (some airBlockState)
        | some data =>
          let block_states := data.map i64ToU64
          let bits := blockPaletteBits bs.palette.length
          let block_index := block_y2 * 16 * 16 + block_z * 16 + block_x
          match get_item_in_packed_slice block_states block_index bits with
          | .panic => .panic
          | .ok block =>
            match listIndex bs.palette block with
            | .panic => .panic
            | .ok b => .ok (some b)

/-- Embedding of `data.rs` lines 32-35, the header `Location` entry:
a 24-bit big-endian sector offset and a one-byte sector count. -/
structure Location where
  offset : Nat
  sector_count : Nat
deriving DecidableEq, Repr

/-- Embedding of `data.rs` lines 38-40, `Location::is_empty`. -/
def Location.is_empty (l : Location) : Bool :=
  l.offset == 0 && l.sector_count == 0

/-- Embedding of `data.rs` lines 62-66, the `Chunk` view produced by
`Region::get_chunk`: the compression type is kept as the raw tag byte (the
source transmutes the byte into the `CompressionType` enum; a byte outside the
enum's five values is an invalid discriminant there, i.e. undefined behaviour,
modelled as a crash in `Chunk.parse`). -/
structure Chunk where
  compression_type : Nat
  compressed_data : List Nat
deriving DecidableEq, Repr

/-- Embedding of `data.rs` lines 108-110, `Chunk::len`. -/
def Chunk.len (c : Chunk) : Nat := c.compressed_data.length

/-- Embedding of `data.rs` lines 91-105, `Chunk::parse`, parameterized over
the two external collaborators: `inflate` (the miniz_oxide zlib
decompressor, whose error converts to `Error::DecompressError`) and
`nbtFromBytes` (the fastnbt deserializer, whose error converts to
`Error::NbtError`).  The tags 1 (gzip), 3 (uncompressed), 4 (LZ4) and
127 (custom) each hit `todo!()`, which panics; any other byte is an invalid
`CompressionType` discriminant (undefined behaviour from the transmute in
`Region::get_chunk`), likewise modelled as a crash. -/
def Chunk.parse (inflate : List Nat → Except Unit (List Nat))
    (nbtFromBytes : List Nat → Except Unit ChunkNbt) (c : Chunk) :
    RResult ParsedChunk :=
  match c.compression_type with
  | 1 => .panic
  | 2 =>
    match inflate c.compressed_data with
    | .error _ => .err .DecompressError
    | .ok uncompressed =>
      match nbtFromBytes uncompressed with
      | .error _ => .err .NbtError
      | .ok nbt => .ok ⟨nbt⟩
  | 3 => .panic
  | 4 => .panic
  | 127 => .panic
  | _ => .panic

/-- Embedding of `lib.rs` lines 63-67: the `Region` dynamically-sized struct,
as the three views it overlays on the input bytes: 1024 location entries,
1024 timestamps (already converted from their 4-byte big-endian form, which
`get_timestamp` would otherwise do at each access via `as_u32`), and the
payload bytes. -/
structure Region where
  locations : List Location
  timestamps : List Nat
  data : List Nat
deriving DecidableEq, Repr

/-- Parse `count` 4-byte location entries (3-byte big-endian offset plus
1-byte sector count, `data.rs` lines 32-35) from the head of `bytes` and
return them together with the unconsumed bytes: the `[Location; 1024]`
overlay of the first header half.  The ragged final case is unreachable from
`from_slice`/`from_reader`, whose length check guarantees enough bytes. -/
def parseLocations : Nat → List Nat → List Location × List Nat
  | 0, rest => ([], rest)
  | count + 1, b0 :: b1 :: b2 :: b3 :: rest =>
    let p := parseLocations count rest
    (⟨be24 b0 b1 b2, b3⟩ :: p.1, p.2)
  | _ + 1, _ => ([], [])

/-- Parse `count` 4-byte big-endian timestamps and return them together with
the unconsumed bytes: the `[BigEndian<4>; 1024]` overlay of the second
header half. -/
def parseTimestamps : Nat → List Nat → List Nat × List Nat
  | 0, rest => ([], rest)
  | count + 1, b0 :: b1 :: b2 :: b3 :: rest =>
    let p := parseTimestamps count rest
    (be32 b0 b1 b2 b3 :: p.1, p.2)
  | _ + 1, _ => ([], [])

/-- Embedding of `lib.rs` lines 76-85, `Region::from_slice`: fails with
`MissingHeader` when the slice is shorter than 8192 bytes, otherwise
reinterprets the slice as a `Region`.  The 1024 location entries consume
bytes [0, 4096), the 1024 timestamps bytes [4096, 8192), and the payload is
the remaining bytes: exactly the three views the source's pointer cast
overlays on the slice. -/
def Region.from_slice (slice : List Nat) : Except Error Region :=
  if slice.length < 8192 then .error .MissingHeader
  else
    let locs := parseLocations 1024 slice
    let ts := parseTimestamps 1024 locs.2
    .ok ⟨locs.1, ts.1, ts.2⟩

/-- Embedding of `lib.rs` lines 126-144, `Region::from_reader`: reads the
reader to the end (the reader is modelled by the byte sequence it delivers;
an I/O failure would surface as `IoError` before the logic modelled here) and
performs the same length check and reinterpretation as `from_slice`,
returning an owned region. -/
def Region.from_reader (bytes : List Nat) : Except Error Region :=
  if bytes.length < 8192 then .error .MissingHeader
  else
    let locs := parseLocations 1024 bytes
    let ts := parseTimestamps 1024 locs.2
    .ok ⟨locs.1, ts.1, ts.2⟩

/-- Embedding of `lib.rs` lines 152-158, `Region::chunk_index`:
two `assert!` calls, then the flat index `z * 32 + x`. -/
def Region.chunk_index (x z : Nat) : PanicOr Nat :=
  if 32 ≤ x then .panic
  else if 32 ≤ z then .panic
  else .ok (z * 32 + x)

/-- Embedding of `lib.rs` lines 185-187, `Region::get_timestamp`
(the `as_u32` conversion is folded into the parsed timestamp view). -/
def Region.get_timestamp (r : Region) (x z : Nat) : PanicOr Nat :=
  match Region.chunk_index x z with
  | .panic => .panic
  | .ok i => listIndex r.timestamps i

/-- Embedding of `lib.rs` lines 194-196, `Region::has_chunk`. -/
def Region.has_chunk (r : Region) (x z : Nat) : PanicOr Bool :=
  match Region.chunk_index x z with
  | .panic => .panic
  | .ok i =>
    match listIndex r.locations i with
    | .panic => .panic
    | .ok loc => .ok (!loc.is_empty)

/-- Embedding of `lib.rs` lines 212-246, `Region::get_chunk`, with
debug-build semantics for the two unchecked subtractions: the `u32`
subtraction `offset - 2` panics when `offset < 2`, and the `usize`
subtraction `len - 1` (inside the final slice construction) panics when the
declared length is 0.  The four length-prefix bytes are read only after the
`start + 4` bounds check, so the `getD` defaults are never taken. -/
def Region.get_chunk (r : Region) (chunk_x chunk_z : Nat) :
    RResult (Option Chunk) :=
  match Region.chunk_index chunk_x chunk_z with
  | .panic => .panic
  | .ok i =>
    match listIndex r.locations i with
    | .panic => .panic
    | .ok loc =>
      if loc.is_empty then .ok none
      else if loc.offset < 2 then .panic
      else
        let start := (loc.offset - 2) * 4096
        if r.data.length < start + 4 then .err .UnexpectedEof
        else
          let len := be32 (r.data.getD start 0) (r.data.getD (start + 1) 0)
                          (r.data.getD (start + 2) 0) (r.data.getD (start + 3) 0)
          if r.data.length < start + 4 + len then .err .UnexpectedEof
          else if len = 0 then .panic
          else .ok (some ⟨r.data.getD (start + 4) 0,
                          (r.data.drop (start + 5)).take (len - 1)⟩)

/-! Concrete inputs used by the counterexamples and witnesses below. -/

/-- A non-air block state with no properties. -/
def stoneState : BlockState := ⟨⟨.Minecraft, "stone"⟩, none⟩

/-- A second non-air block state, distinct from `stoneState`. -/
def dirtState : BlockState := ⟨⟨.Minecraft, "dirt"⟩, none⟩

/-- Block states with a single-entry non-air palette and no packed array. -/
def c1BlockStates : BlockStates := ⟨[stoneState], none⟩

/-- A parsed chunk with one section (y = 0) holding `c1BlockStates`. -/
def c1Chunk : ParsedChunk := ⟨⟨[⟨some c1BlockStates, 0, none⟩]⟩⟩

/-- A trivial stand-in for the zlib decompressor (never reached by the
non-zlib dispatch facts proved below). -/
def c2TrivInflate : List Nat → Except Unit (List Nat) := fun _ => .error ()

/-- A trivial stand-in for the NBT deserializer. -/
def c2TrivNbt : List Nat → Except Unit ChunkNbt := fun _ => .error ()

/-- A chunk handle carrying the gzip tag (1). -/
def c2GzipChunk : Chunk := ⟨1, [31, 139, 8]⟩

/-- A chunk handle carrying the uncompressed tag (3). -/
def c2StoredChunk : Chunk := ⟨3, [10, 0]⟩

/-- A parsed chunk with sections y = -1 and y = 0, each with a distinct
single-entry palette and an all-zero packed array of the required 256 words,
so each section decodes every position to its own palette entry. -/
def c3Chunk : ParsedChunk :=
  ⟨⟨[⟨some ⟨[stoneState], some (List.replicate 256 0)⟩, -1, none⟩,
     ⟨some ⟨[dirtState], some (List.replicate 256 0)⟩, 0, none⟩]⟩⟩

/-- A packed data array whose first encoded index (3) is out of range for a
two-entry palette. -/
def c4Data : List Int := 3 :: List.replicate 255 0

/-- Block states pairing a two-entry palette with `c4Data`. -/
def c4BlockStates : BlockStates := ⟨[stoneState, dirtState], some c4Data⟩

/-- The section holding `c4BlockStates` at y = 0. -/
def c4Section : ChunkSection := ⟨some c4BlockStates, 0, none⟩

/-- A parsed chunk with the single section `c4Section`. -/
def c4Chunk : ParsedChunk := ⟨⟨[c4Section]⟩⟩

/-- A full region buffer (8196 bytes): location entry 0 has sector offset 2
and sector count 1; the payload is a chunk whose declared big-endian length
is 0. -/
def c5Bytes : List Nat :=
  [0, 0, 2, 1] ++ List.replicate 4092 0 ++ List.replicate 4096 0 ++ [0, 0, 0, 0]

/-- The region view that `Region.from_slice` produces from `c5Bytes`. -/
def c5Region : Region :=
  ⟨⟨2, 1⟩ :: List.replicate 1023 ⟨0, 0⟩, List.replicate 1024 0, [0, 0, 0, 0]⟩

/-- A region whose location entry 0 is non-empty but has sector offset 1
(inside the reserved header sectors). -/
def c6Region : Region :=
  ⟨⟨1, 1⟩ :: List.replicate 1023 ⟨0, 0⟩, List.replicate 1024 0, []⟩

/-- A region with a well-formed chunk at slot 0: declared length 2, zlib tag,
one byte of compressed data. -/
def c6WitRegion : Region :=
  ⟨⟨2, 1⟩ :: List.replicate 1023 ⟨0, 0⟩, List.replicate 1024 0,
   [0, 0, 0, 2, 2, 99]⟩

/-- A region with all slots empty. -/
def emptyRegion : Region :=
  ⟨List.replicate 1024 ⟨0, 0⟩, List.replicate 1024 0, []⟩

/-- A packed array of 2^32 + 256 words: its word count differs from the
required 256 (for bit width 4) by exactly 2^32, so the `as u32` cast in the
length assertion cannot see the difference. -/
def c9BigSlice : List Nat := List.replicate (2 ^ 32 + 256) 0

/-! Supporting lemmas. -/

/-- Upper characterization of `ceilLog2`: `n ≤ 2 ^ ceilLog2 n`. -/
theorem ceilLog2Aux_le_pow : ∀ fuel n : Nat, n ≤ fuel → n ≤ 2 ^ ceilLog2Aux fuel n := by
  intro fuel
  induction fuel with
  | zero =>
    intro n hn
    have hn0 : n = 0 := by omega
    subst hn0
    exact Nat.zero_le _
  | succ f ih =>
    intro n hn
    match n with
    | 0 => exact Nat.zero_le _
    | 1 => simp [ceilLog2Aux]
    | m + 2 =>
      have hrec := ih ((m + 3) / 2) (by omega)
      show m + 2 ≤ 2 ^ (ceilLog2Aux f ((m + 3) / 2) + 1)
      calc m + 2 ≤ 2 * ((m + 3) / 2) := by omega
        _ ≤ 2 * 2 ^ ceilLog2Aux f ((m + 3) / 2) := by
            exact Nat.mul_le_mul_left 2 hrec
        _ = 2 ^ (ceilLog2Aux f ((m + 3) / 2) + 1) := by
            rw [Nat.pow_succ, Nat.mul_comm]

/-- Minimality characterization of `ceilLog2`: it is the least exponent
whose power of two reaches `n`. -/
theorem ceilLog2Aux_min : ∀ fuel n k : Nat, n ≤ fuel → n ≤ 2 ^ k →
    ceilLog2Aux fuel n ≤ k := by
  intro fuel
  induction fuel with
  | zero =>
    intro n k hn _
    have hn0 : n = 0 := by omega
    subst hn0
    simp [ceilLog2Aux]
  | succ f ih =>
    intro n k hn hk
    match n with
    | 0 => simp [ceilLog2Aux]
    | 1 => simp [ceilLog2Aux]
    | m + 2 =>
      show ceilLog2Aux f ((m + 3) / 2) + 1 ≤ k
      match k with
      | 0 =>
        rw [pow_zero] at hk
        omega
      | j + 1 =>
        have hj : (m + 3) / 2 ≤ 2 ^ j := by
          have h2 : m + 2 ≤ 2 * 2 ^ j := by
            rw [Nat.pow_succ, Nat.mul_comm] at hk; exact hk
          omega
        have := ih ((m + 3) / 2) j (by omega) hj
        omega

/-- The `n ≤ 2 ^ ceilLog2 n` form at the top-level definition. -/
theorem le_pow_ceilLog2 (n : Nat) : n ≤ 2 ^ ceilLog2 n :=
  ceilLog2Aux_le_pow n n (Nat.le_refl n)

/-- The minimality form at the top-level definition. -/
theorem ceilLog2_le (n k : Nat) (h : n ≤ 2 ^ k) : ceilLog2 n ≤ k :=
  ceilLog2Aux_min n n k (Nat.le_refl n) h

/-- Unfolding equation for `parseLocations` on a buffer with at least four
bytes. -/
theorem parseLocations_succ_cons (count b0 b1 b2 b3 : Nat) (rest : List Nat) :
    parseLocations (count + 1) (b0 :: b1 :: b2 :: b3 :: rest) =
      (⟨be24 b0 b1 b2, b3⟩ :: (parseLocations count rest).1,
       (parseLocations count rest).2) := rfl

/-- Unfolding equation for `parseTimestamps` on a buffer with at least four
bytes. -/
theorem parseTimestamps_succ_cons (count b0 b1 b2 b3 : Nat) (rest : List Nat) :
    parseTimestamps (count + 1) (b0 :: b1 :: b2 :: b3 :: rest) =
      (be32 b0 b1 b2 b3 :: (parseTimestamps count rest).1,
       (parseTimestamps count rest).2) := rfl

/-- Parsing location entries out of a run of zero bytes yields empty
entries and leaves the suffix untouched. -/
theorem parseLocations_replicate_zero (rest : List Nat) :
    ∀ n, parseLocations n (List.replicate (4 * n) 0 ++ rest) =
      (List.replicate n ⟨0, 0⟩, rest) := by
  intro n
  induction n with
  | zero => simp [parseLocations]
  | succ m ih =>
    have h4 : 4 * (m + 1) = 4 + 4 * m := by ring
    rw [h4, List.replicate_add, List.append_assoc]
    show parseLocations (m + 1)
        (0 :: 0 :: 0 :: 0 :: (List.replicate (4 * m) 0 ++ rest)) = _
    rw [parseLocations_succ_cons, ih, List.replicate_succ]
    rfl

/-- Parsing timestamps out of a run of zero bytes yields zero timestamps and
leaves the suffix untouched. -/
theorem parseTimestamps_replicate_zero (rest : List Nat) :
    ∀ n, parseTimestamps n (List.replicate (4 * n) 0 ++ rest) =
      (List.replicate n 0, rest) := by
  intro n
  induction n with
  | zero => simp [parseTimestamps]
  | succ m ih =>
    have h4 : 4 * (m + 1) = 4 + 4 * m := by ring
    rw [h4, List.replicate_add, List.append_assoc]
    show parseTimestamps (m + 1)
        (0 :: 0 :: 0 :: 0 :: (List.replicate (4 * m) 0 ++ rest)) = _
    rw [parseTimestamps_succ_cons, ih, List.replicate_succ]
    rfl

/-! Claim theorems. -/

/-- C1: the claim says a section whose palette is present but whose packed
data array is absent decodes every position to `palette[0]`, regardless of
what that entry is.  The code instead returns a hard-coded `minecraft:air`
block state: on a single-entry palette holding `minecraft:stone`, `get_block`
returns air, not the palette's entry at index 0.  (This contradicts the
source's own documentation on `BlockStates::data`, `nbt.rs` lines 257-258:
"If only one block state is present in the palette, ... the block fills the
whole section".) -/
theorem c1_absent_data_returns_hardcoded_air :
    c1Chunk.get_block 3 5 7 = .ok (some airBlockState) ∧
    c1BlockStates.palette[0]? = some stoneState ∧
    c1BlockStates.data = none ∧
    airBlockState ≠ stoneState := by decide

/-- C2 counterexample: the claim says every chunk whose compression tag is
not zlib is rejected with a distinct `UnsupportedCompression(tag)` typed
error.  On a gzip-tagged (tag 1) chunk, `Chunk::parse` instead reaches the
`todo!()` branch, i.e. it panics; moreover the crate's `Error` enum has no
`UnsupportedCompression` variant at all. -/
theorem c2_gzip_parse_hits_todo :
    Chunk.parse c2TrivInflate c2TrivNbt c2GzipChunk = .panic := by decide

/-- C2 amended: for every chunk handle whose compression tag is not zlib
(tag 2) - tags 1, 3, 4, 127 or any unrecognized byte - `Chunk::parse` reaches
an unimplemented `todo!()` (panicking) branch (an unrecognized byte is an
invalid enum discriminant, undefined behaviour, likewise a crash); no
`UnsupportedCompression` typed error exists or is returned. -/
theorem c2_amended_nonzlib_panics
    (inflate : List Nat → Except Unit (List Nat))
    (nbtFromBytes : List Nat → Except Unit ChunkNbt) (c : Chunk)
    (h : c.compression_type ≠ 2) :
    Chunk.parse inflate nbtFromBytes c = .panic := by
  unfold Chunk.parse
  split
  · rfl
  · rename_i heq
    exact absurd heq h
  · rfl
  · rfl
  · rfl
  · rfl

/-- C2 witness: the amended theorem applied to the concrete uncompressed-tag
(3) chunk. -/
theorem c2_amended_nonzlib_panics_witness :
    Chunk.parse c2TrivInflate c2TrivNbt c2StoredChunk = .panic :=
  c2_amended_nonzlib_panics c2TrivInflate c2TrivNbt c2StoredChunk (by decide)

/-- C3: the claim says the section consulted for world y is the one at index
floor(y / 16) (signed floor), so y = -1 resolves to section -1 with
in-section offset 15.  The code computes the section index with Rust's
truncating division: for y = -1 it consults the section at index 0 (while a
section at index -1 = floor(-1 / 16) exists), pairing it with the
floor-modulo offset 15, i.e. it reads the block at world y = 15 instead.
The in-section offset (`positive_mod`) does equal 15 as claimed.  The
truncating index contradicts the floor semantics the paired `positive_mod!`
macro (`util.rs` line 1: "Mod into positive, i.e. -1 % 16 == 15")
establishes for the same coordinate. -/
theorem c3_section_lookup_truncates :
    (c3Chunk.get_chunk_section_at (-1)).map ChunkSection.y = some 0 ∧
    c3Chunk.nbt.sections.any (fun s => s.y == -1) = true ∧
    Int.fdiv (-1) 16 = -1 ∧
    c3Chunk.get_block 0 (-1) 0 = .ok (some dirtState) ∧
    positive_mod (-1) 16 = 15 := by decide

/-- C4 counterexample: the claim says an out-of-range packed index surfaces
a data-corruption error to the caller rather than panicking.  On a section
whose packed array encodes raw value 3 against a two-entry palette,
`get_block` panics (Rust index out of bounds); it has no error channel at
all (it returns `Option`). -/
theorem c4_out_of_range_raw_value_panics :
    get_item_in_packed_slice (c4Data.map i64ToU64) 0
      (blockPaletteBits c4BlockStates.palette.length) = .ok 3 ∧
    c4BlockStates.palette.length = 2 ∧
    c4Chunk.get_block 0 0 0 = .panic := by decide

/-- C4 amended: an extracted raw value that is out of range for the palette
makes `get_block` panic (index out of bounds); no error is surfaced. -/
theorem c4_amended_out_of_range_panics (c : ParsedChunk) (x : Nat) (y : Int)
    (z : Nat) (sec : ChunkSection) (bs : BlockStates) (d : List Int)
    (raw : Nat)
    (hsec : c.get_chunk_section_at y = some sec)
    (hx : x < 16) (hz : z < 16)
    (hbs : sec.block_states = some bs)
    (hdata : bs.data = some d)
    (hraw : get_item_in_packed_slice (d.map i64ToU64)
        ((positive_mod y 16).toNat * 16 * 16 + z * 16 + x)
        (blockPaletteBits bs.palette.length) = .ok raw)
    (hoob : bs.palette.length ≤ raw) :
    c.get_block x y z = .panic := by
  have hx' : ¬ 16 ≤ x := by omega
  have hz' : ¬ 16 ≤ z := by omega
  have hnone : bs.palette[raw]? = none := by
    rw [List.getElem?_eq_none_iff]
    exact hoob
  unfold ParsedChunk.get_block
  rw [hsec]
  simp only [hx', if_false, hz', hbs, hdata, hraw, listIndex, hnone]

/-- C4 witness: the amended theorem applied at the concrete chunk whose
packed array encodes 3 against a two-entry palette. -/
theorem c4_amended_out_of_range_panics_witness :
    c4Chunk.get_block 0 0 0 = .panic :=
  c4_amended_out_of_range_panics c4Chunk 0 0 0 c4Section c4BlockStates c4Data
    3 (by decide) (by decide) (by decide) (by decide) (by decide) (by decide)
    (by decide)

/-- C7: `Region::from_slice` and `Region::from_reader` agree on every input
byte sequence: both fail with `MissingHeader` exactly when the input is
shorter than 8192 bytes, and otherwise both succeed (with no further eager
validation) producing equal regions. -/
theorem c7_from_slice_from_reader_agree (bytes : List Nat) :
    Region.from_slice bytes = Region.from_reader bytes ∧
    (Region.from_slice bytes = .error .MissingHeader ↔ bytes.length < 8192) ∧
    ((∃ r : Region, Region.from_slice bytes = .ok r) ↔ 8192 ≤ bytes.length) := by
  unfold Region.from_slice Region.from_reader
  by_cases h : bytes.length < 8192
  · rw [if_pos h]
    refine ⟨rfl, by simp [h], ?_⟩
    constructor
    · rintro ⟨r, hr⟩
      exact absurd hr (by simp)
    · intro hge
      omega
  · rw [if_neg h]
    refine ⟨rfl, by simp [h], ?_⟩
    constructor
    · intro _
      omega
    · intro _
      exact ⟨_, rfl⟩

/-- C7 witness: the agreement theorem applied to a concrete 8192-byte
buffer. -/
theorem c7_from_slice_from_reader_agree_witness :
    Region.from_slice (List.replicate 8192 0) =
      Region.from_reader (List.replicate 8192 0) :=
  (c7_from_slice_from_reader_agree (List.replicate 8192 0)).1

/-- C10: for x ≥ 32 or z ≥ 32, every header-indexed operation
(`get_chunk`, `get_timestamp`, `has_chunk`) deterministically panics via the
`assert!` in `chunk_index` (a contract violation, not a recoverable error);
for x, z < 32 the flat index used is z * 32 + x. -/
theorem c10_header_index_contract (r : Region) (x z : Nat) :
    ((32 ≤ x ∨ 32 ≤ z) →
      Region.chunk_index x z = .panic ∧
      r.get_timestamp x z = .panic ∧
      r.has_chunk x z = .panic ∧
      r.get_chunk x z = .panic) ∧
    (x < 32 → z < 32 → Region.chunk_index x z = .ok (z * 32 + x)) := by
  constructor
  · intro h
    have hidx : Region.chunk_index x z = .panic := by
      unfold Region.chunk_index
      rcases h with h | h
      · rw [if_pos h]
      · by_cases hx : 32 ≤ x
        · rw [if_pos hx]
        · rw [if_neg hx, if_pos h]
    refine ⟨hidx, ?_, ?_, ?_⟩
    · unfold Region.get_timestamp
      rw [hidx]
    · unfold Region.has_chunk
      rw [hidx]
    · unfold Region.get_chunk
      rw [hidx]
  · intro hx hz
    unfold Region.chunk_index
    rw [if_neg (by omega), if_neg (by omega)]

/-- C10 witness: the contract theorem applied at the out-of-range pair
(32, 0) and the in-range pair (5, 7). -/
theorem c10_header_index_contract_witness :
    emptyRegion.get_timestamp 32 0 = .panic ∧
    Region.chunk_index 5 7 = .ok 229 := by
  constructor
  · exact ((c10_header_index_contract emptyRegion 32 0).1 (Or.inl (by decide))).2.1
  · exact (c10_header_index_contract emptyRegion 5 7).2 (by decide) (by decide)

/-- C5: the claim says `get_chunk` on any accepted buffer returns
`Ok(None)`, `Ok(Some(handle))` or a typed `UnexpectedEof` - never a panic or
arithmetic underflow - in particular for a declared chunk length of 0.  On
the 8196-byte buffer `c5Bytes` (accepted by `from_slice`, no eager
validation) the location entry 0 is valid (offset 2, count 1) but the chunk's
declared big-endian length is 0, so `get_chunk` reaches `len - 1`, which
underflows: a panic under debug assertions (and in release the wrapped value
`usize::MAX` becomes the byte length of the returned chunk view, far out of
bounds), not a typed error. -/
theorem c5_declared_length_zero_underflows :
    8192 ≤ c5Bytes.length ∧
    Region.from_slice c5Bytes = .ok c5Region ∧
    c5Region.get_chunk 0 0 = .panic := by
  have hlen : c5Bytes.length = 8196 := by
    simp only [c5Bytes, List.length_append, List.length_replicate,
      List.length_cons, List.length_nil]
  have hc : ¬ c5Bytes.length < 8192 := by omega
  refine ⟨by omega, ?_, by decide⟩
  have hbytes : c5Bytes =
      0 :: 0 :: 2 :: 1 :: (List.replicate (4 * 1023) 0 ++
        (List.replicate (4 * 1024) 0 ++ [0, 0, 0, 0])) := by
    simp only [c5Bytes, List.append_assoc, List.cons_append, List.nil_append]
  rw [Region.from_slice, if_neg hc, hbytes,
    show (1024 : Nat) = 1023 + 1 from rfl, parseLocations_succ_cons,
    parseLocations_replicate_zero]
  dsimp only
  rw [show (1023 : Nat) + 1 = 1024 from rfl, parseTimestamps_replicate_zero]
  rfl

/-- C6 counterexample: the claim describes, for every non-empty location
entry, a computation that ends in `Ok` or `UnexpectedEof`.  A non-empty entry
with sector offset 1 instead makes `get_chunk` panic: the `u32` subtraction
`offset - 2` underflows. -/
theorem c6_sector_offset_below_two_panics :
    Location.is_empty ⟨1, 1⟩ = false ∧
    c6Region.locations[0]? = some ⟨1, 1⟩ ∧
    c6Region.get_chunk 0 0 = .panic := by decide

/-- Core unfolding of `Region.get_chunk` for in-range coordinates and a
located header entry. -/
theorem get_chunk_eq (r : Region) (x z : Nat) (loc : Location)
    (hx : x < 32) (hz : z < 32)
    (hloc : r.locations[z * 32 + x]? = some loc) :
    r.get_chunk x z =
      (if loc.is_empty then .ok none
       else if loc.offset < 2 then .panic
       else
        let start := (loc.offset - 2) * 4096
        if r.data.length < start + 4 then .err .UnexpectedEof
        else
          let len := be32 (r.data.getD start 0) (r.data.getD (start + 1) 0)
                         (r.data.getD (start + 2) 0) (r.data.getD (start + 3) 0)
          if r.data.length < start + 4 + len then .err .UnexpectedEof
          else if len = 0 then .panic
          else .ok (some ⟨r.data.getD (start + 4) 0,
                          (r.data.drop (start + 5)).take (len - 1)⟩)) := by
  unfold Region.get_chunk Region.chunk_index listIndex
  rw [if_neg (by omega), if_neg (by omega)]
  dsimp only
  rw [hloc]

/-- C6 amended: for x, z in [0, 32), an empty location entry yields
`Ok(None)`; a non-empty entry - provided its sector offset is at least 2 (an
offset of 0 or 1 underflows and panics, see the counterexample) - leads to
`byteStart = (sector_offset - 2) * 4096`, an `UnexpectedEof` when fewer than
4 bytes remain at `byteStart`, an `UnexpectedEof` when the declared
big-endian length `L` reaches past the payload, and otherwise - provided
additionally `L ≥ 1` (a declared length of 0 underflows and panics) - a
handle whose compression tag is the byte at `byteStart + 4` and whose
compressed data is the sub-slice `[byteStart + 5, byteStart + 4 + L)`, of
length `L - 1`. -/
theorem c6_amended_get_chunk_algorithm (r : Region) (x z : Nat)
    (loc : Location) (hx : x < 32) (hz : z < 32)
    (hloc : r.locations[z * 32 + x]? = some loc)
    (hoff : loc.is_empty = false → 2 ≤ loc.offset) :
    (loc.is_empty = true → r.get_chunk x z = .ok none) ∧
    (loc.is_empty = false →
      (r.data.length < (loc.offset - 2) * 4096 + 4 →
        r.get_chunk x z = .err .UnexpectedEof) ∧
      ∀ L, L = be32 (r.data.getD ((loc.offset - 2) * 4096) 0)
                 (r.data.getD ((loc.offset - 2) * 4096 + 1) 0)
                 (r.data.getD ((loc.offset - 2) * 4096 + 2) 0)
                 (r.data.getD ((loc.offset - 2) * 4096 + 3) 0) →
        ((loc.offset - 2) * 4096 + 4 ≤ r.data.length →
          r.data.length < (loc.offset - 2) * 4096 + 4 + L →
          r.get_chunk x z = .err .UnexpectedEof) ∧
        ((loc.offset - 2) * 4096 + 4 + L ≤ r.data.length → 1 ≤ L →
          ∃ ch : Chunk, r.get_chunk x z = .ok (some ch) ∧
            ch.compression_type = r.data.getD ((loc.offset - 2) * 4096 + 4) 0 ∧
            ch.compressed_data.length = L - 1 ∧
            ∀ j, j < L - 1 →
              ch.compressed_data[j]? =
                r.data[(loc.offset - 2) * 4096 + 5 + j]?)) := by
  have hcore := get_chunk_eq r x z loc hx hz hloc
  constructor
  · intro hempty
    rw [hcore, if_pos hempty]
  · intro hne
    have hne' : loc.is_empty ≠ true := by simp [hne]
    have hge : ¬ loc.offset < 2 := by
      have := hoff hne
      omega
    constructor
    · intro hshort
      rw [hcore, if_neg hne', if_neg hge]
      dsimp only
      rw [if_pos hshort]
    · intro L hL
      constructor
      · intro hok4 hshort2
        rw [hcore, if_neg hne', if_neg hge]
        dsimp only
        rw [if_neg (by omega)]
        rw [← hL, if_pos hshort2]
      · intro hfit hL1
        refine ⟨⟨r.data.getD ((loc.offset - 2) * 4096 + 4) 0,
          (r.data.drop ((loc.offset - 2) * 4096 + 5)).take (L - 1)⟩, ?_, rfl, ?_, ?_⟩
        · rw [hcore, if_neg hne', if_neg hge]
          dsimp only
          rw [if_neg (by omega), ← hL, if_neg (by omega), if_neg (by omega)]
        · simp only [List.length_take, List.length_drop]
          omega
        · intro j hj
          rw [List.getElem?_take_of_lt hj, List.getElem?_drop]

/-- C6 witness: the amended theorem applied to the concrete region with a
well-formed chunk (offset 2, declared length 2, zlib tag, one data byte) at
slot 0. -/
theorem c6_amended_get_chunk_algorithm_witness :
    ∃ ch : Chunk, c6WitRegion.get_chunk 0 0 = .ok (some ch) ∧
      ch.compression_type = 2 ∧ ch.compressed_data.length = 1 := by
  have h := (c6_amended_get_chunk_algorithm c6WitRegion 0 0 ⟨2, 1⟩ (by decide)
    (by decide) (by decide) (fun _ => by decide)).2 (by decide)
  obtain ⟨ch, h1, h2, h3, _⟩ := (h.2 _ rfl).2 (by decide) (by decide)
  refine ⟨ch, h1, ?_, ?_⟩
  · rw [h2]
    decide
  · rw [h3]
    decide

/-- C8: the packed-palette decode uses
`bits = max(ceil(log2 p), 4)`, `values_per_word = 64 / bits` (integer
division), `word_index = i / values_per_word`,
`slot_in_word = i % values_per_word` and
`raw_value = (word[word_index] >> (bits * slot_in_word)) & ((1 << bits) - 1)`;
consequently an all-zero packed array decodes every position to index 0.
(Palette sizes are bounded by 4096, the number of voxels in a section, which
also keeps the source's `f32` bit-width computation exact.) -/
theorem c8_packed_decode_formula (p : Nat) (slice : List Nat) (i : Nat)
    (hp2 : p ≤ 4096)
    (hlen : slice.length =
      (4096 + 64 / blockPaletteBits p - 1) / (64 / blockPaletteBits p))
    (hi : i < 4096) :
    (i / (64 / blockPaletteBits p) < slice.length ∧
      get_item_in_packed_slice slice i (blockPaletteBits p) =
        .ok ((slice.getD (i / (64 / blockPaletteBits p)) 0 >>>
              (blockPaletteBits p * (i % (64 / blockPaletteBits p)))) &&&
             (2 ^ blockPaletteBits p - 1))) ∧
    ((∀ w ∈ slice, w = 0) →
      get_item_in_packed_slice slice i (blockPaletteBits p) = .ok 0) := by
  have hb4 : 4 ≤ blockPaletteBits p := Nat.le_max_right _ _
  have hb12 : blockPaletteBits p ≤ 12 :=
    max_le (ceilLog2_le p 12 (le_trans hp2 (by norm_num))) (by norm_num)
  have hv1 : 1 ≤ 64 / blockPaletteBits p :=
    (Nat.one_le_div_iff (by omega)).mpr (by omega)
  have hceil : (4096 + 64 / blockPaletteBits p - 1) / (64 / blockPaletteBits p)
      = 4095 / (64 / blockPaletteBits p) + 1 := by
    have h1 : 4096 + 64 / blockPaletteBits p - 1
        = 4095 + 64 / blockPaletteBits p := by omega
    rw [h1, Nat.add_div_right _ (by omega)]
  have hlen4096 : slice.length ≤ 4096 := by
    rw [hlen, hceil]
    have := Nat.div_le_self 4095 (64 / blockPaletteBits p)
    omega
  have hmod : slice.length % 2 ^ 32 = slice.length :=
    Nat.mod_eq_of_lt (by omega)
  have hbound : i / (64 / blockPaletteBits p) < slice.length := by
    rw [hlen, hceil]
    have := Nat.div_le_div_right (c := 64 / blockPaletteBits p)
      (show i ≤ 4095 by omega)
    omega
  have hmain : get_item_in_packed_slice slice i (blockPaletteBits p) =
      .ok ((slice.getD (i / (64 / blockPaletteBits p)) 0 >>>
            (blockPaletteBits p * (i % (64 / blockPaletteBits p)))) &&&
           (2 ^ blockPaletteBits p - 1)) := by
    unfold get_item_in_packed_slice listIndex
    rw [if_neg (by omega), if_neg (by omega),
      if_neg (not_not_intro (by rw [hmod, hlen])),
      List.getElem?_eq_getElem hbound]
    dsimp only
    rw [if_neg (by omega), List.getD_eq_getElem _ _ hbound]
  refine ⟨⟨hbound, hmain⟩, ?_⟩
  intro hzero
  rw [hmain]
  have h0 : slice.getD (i / (64 / blockPaletteBits p)) 0 = 0 := by
    rw [List.getD_eq_getElem _ _ hbound]
    exact hzero _ (List.getElem_mem hbound)
  rw [h0, Nat.zero_shiftRight, Nat.zero_and]

/-- C8 witness: the decode theorem applied to a single-entry palette (bit
width 4, 256 words) with an all-zero packed array at linear index 4095. -/
theorem c8_packed_decode_formula_witness :
    get_item_in_packed_slice (List.replicate 256 0) 4095 (blockPaletteBits 1)
      = .ok 0 := by
  refine (c8_packed_decode_formula 1 (List.replicate 256 0) 4095 (by decide)
    (by decide) (by decide)).2 ?_
  intro w hw
  exact List.eq_of_mem_replicate hw

/-- Decode of the first voxel out of any 2^32 + 256 word array whose first
word is zero, stated over an abstract list so that the kernel never needs to
normalize a concrete list of that size. -/
theorem c9_big_aux (slice : List Nat) (hlen : slice.length = 2 ^ 32 + 256)
    (h0 : slice[0]? = some 0) :
    get_item_in_packed_slice slice 0 4 = .ok 0 := by
  unfold get_item_in_packed_slice listIndex
  rw [if_neg (by norm_num), if_neg (by norm_num),
    if_neg (not_not_intro (by rw [hlen]; norm_num)), h0]
  decide

/-- C9 counterexample: the claim says the decoder checks, for every packed
array, that the word count equals `ceil(4096 / values_per_word)` and fails
loudly on a mismatch.  The assertion compares `slice.len() as u32`, so an
array of 2^32 + 256 words (bit width 4, expected word count 256) passes the
check and is decoded silently instead of failing. -/
theorem c9_oversized_array_passes_u32_check :
    c9BigSlice.length ≠ (4096 + 64 / 4 - 1) / (64 / 4) ∧
    get_item_in_packed_slice c9BigSlice 0 4 = .ok 0 := by
  have hlen : c9BigSlice.length = 2 ^ 32 + 256 := by
    simp only [c9BigSlice, List.length_replicate]
  have h0 : c9BigSlice[0]? = some 0 := by
    rw [c9BigSlice, List.getElem?_replicate]
    norm_num
  exact ⟨by rw [hlen]; norm_num, c9_big_aux c9BigSlice hlen h0⟩

/-- C9 amended: for every packed array of fewer than 2^32 words (so that the
`u32` cast in the assertion is lossless) and bit width in [1, 63], the
decoder checks the word count against `ceil(4096 / values_per_word)` before
any indexing: a mismatch panics (the `assert_eq!` fails loudly), and a match
guarantees the word index is in bounds for every voxel index below 4096, so
the decode returns a value without out-of-bounds access. -/
theorem c9_amended_length_check (slice : List Nat) (index bits : Nat)
    (h1 : 1 ≤ bits) (h2 : bits ≤ 63) (hsmall : slice.length < 2 ^ 32) :
    (slice.length ≠ (4096 + 64 / bits - 1) / (64 / bits) →
      get_item_in_packed_slice slice index bits = .panic) ∧
    (slice.length = (4096 + 64 / bits - 1) / (64 / bits) → index < 4096 →
      index / (64 / bits) < slice.length ∧
      ∃ v, get_item_in_packed_slice slice index bits = .ok v) := by
  have hv1 : 1 ≤ 64 / bits := (Nat.one_le_div_iff (by omega)).mpr (by omega)
  have hmod : slice.length % 2 ^ 32 = slice.length := Nat.mod_eq_of_lt hsmall
  have hceil : (4096 + 64 / bits - 1) / (64 / bits)
      = 4095 / (64 / bits) + 1 := by
    have h3 : 4096 + 64 / bits - 1 = 4095 + 64 / bits := by omega
    rw [h3, Nat.add_div_right _ (by omega)]
  constructor
  · intro hne
    unfold get_item_in_packed_slice
    rw [if_neg (by omega), if_neg (by omega), if_pos (by rw [hmod]; exact hne)]
  · intro heq hidx
    have hbound : index / (64 / bits) < slice.length := by
      rw [heq, hceil]
      have := Nat.div_le_div_right (c := 64 / bits)
        (show index ≤ 4095 by omega)
      omega
    refine ⟨hbound,
      slice.getD (index / (64 / bits)) 0 >>> (bits * (index % (64 / bits))) &&&
        (2 ^ bits - 1), ?_⟩
    unfold get_item_in_packed_slice listIndex
    rw [if_neg (by omega), if_neg (by omega),
      if_neg (not_not_intro (by rw [hmod, heq])),
      List.getElem?_eq_getElem hbound]
    dsimp only
    rw [if_neg (by omega), List.getD_eq_getElem _ _ hbound]

/-- C9 witness: the amended theorem applied to a one-word array (mismatch:
panic) and to a 256-word array at voxel index 7 (match: a decoded value). -/
theorem c9_amended_length_check_witness :
    get_item_in_packed_slice [0] 0 4 = .panic ∧
    ∃ v, get_item_in_packed_slice (List.replicate 256 0) 7 4 = .ok v := by
  constructor
  · exact (c9_amended_length_check [0] 0 4 (by decide) (by decide)
      (by decide)).1 (by decide)
  · exact ((c9_amended_length_check (List.replicate 256 0) 7 4 (by decide)
      (by decide) (by decide)).2 (by decide) (by decide)).2

end Mca
